import Mathlib

/-!
# golem `connection.go`: the per-connection duplex pump

Shallow embedding of `src/connection.go`.  The two pumps are goroutines that
talk to the outside world only through the socket, the hub channels, the router
and the ticker.  Each pump is embedded as a function from the results that the
outside world hands to it (what `NextReader` returns, what `select` yields,
whether a socket write succeeds, what `time.Now()` reads) to the ordered log of
the calls it makes.  The buffered channel `conn.send` is embedded with the
semantics Go gives to buffered channels, and a schedule interleaves the
producers (`Send`, `Emit`, the hub closing the channel) with the iterations of
the write pump.
-/

namespace Golem

/-! ## Constants -/

/-- A byte slice, `[]byte`. -/
abbrev Bytes := List Nat

/-- Instants and durations, in nanoseconds as in package `time`. -/
abbrev Time := Nat

/-- Value of `time.Second`, in nanoseconds. -/
def second : Nat := 1000000000

/-- Time allowed to write a message to the client. -/
def writeWait : Nat := 10 * second

/-- Time allowed to read the next message from the client. -/
def readWait : Nat := 60 * second

/-- Send pings to client with this period. -/
def pingPeriod : Nat := (readWait * 9) / 10

/-- Maximum message size allowed from client. -/
def maxMessageSize : Nat := 512

/-- Outgoing default channel size. -/
def sendChannelSize : Nat := 512

/-- The frame kinds of package `websocket` (`websocket.OpText`, ...). -/
inductive OpCode where
  | OpContinuation
  | OpText
  | OpBinary
  | OpClose
  | OpPing
  | OpPong
  deriving DecidableEq, Repr

open OpCode

/-! ## The log of calls a goroutine makes -/

/-- One call made by a pump, in the order of the source text.  `conn` is the
address of the `Connection` the call passes along. -/
inductive Effect where
  /-- The send `hub.register <- conn`. -/
  | register (conn : Nat)
  /-- The send `hub.unregister <- conn`. -/
  | unregister (conn : Nat)
  /-- The statement `go conn.writePump()`. -/
  | goWritePump
  /-- The call `conn.socket.SetReadLimit(n)`. -/
  | setReadLimit (n : Nat)
  /-- The call `conn.socket.SetReadDeadline(t)`. -/
  | setReadDeadline (t : Time)
  /-- The call `conn.socket.NextReader()`. -/
  | nextReader
  /-- The call `ioutil.ReadAll(r)`. -/
  | readAll
  /-- The call `conn.router.parse(conn, message)`. -/
  | parse (conn : Nat) (message : Bytes)
  /-- The call `conn.router.closeCallback(conn)`. -/
  | closeCallback (conn : Nat)
  /-- The call `time.NewTicker(d)`. -/
  | newTicker (d : Nat)
  /-- The call `ticker.Stop()`. -/
  | tickerStop
  /-- The call `conn.socket.SetWriteDeadline(t)`. -/
  | setWriteDeadline (t : Time)
  /-- The call `conn.socket.WriteMessage(opCode, payload)`; `ok` is false when
  it returned an error. -/
  | writeMessage (opCode : OpCode) (payload : Bytes) (ok : Bool)
  /-- The call `conn.socket.Close()`. -/
  | socketClose
  deriving DecidableEq, Repr

/-! ## The buffered channel `conn.send` -/

/-- A buffered Go channel of byte slices: the queued values, oldest first,
whether `close` was called on it, and its capacity. -/
structure Chan where
  buf : List Bytes
  closed : Bool
  cap : Nat
  deriving DecidableEq, Repr

/-- The expression `make(chan []byte, n)`. -/
def Chan.make (n : Nat) : Chan := { buf := [], closed := false, cap := n }

/-- What a channel operation or a call does to the state `α`. -/
inductive Outcome (α : Type) where
  /-- The operation completed and left the state `a`. -/
  | done (a : α)
  /-- The operation cannot proceed now: the goroutine stays parked. -/
  | blocked
  /-- The operation panics (send on a closed channel). -/
  | panic
  deriving DecidableEq, Repr

/-- The statement `ch <- data`: panics on a closed channel, parks while the
buffer is full, and otherwise appends at the back. -/
def Chan.send (ch : Chan) (data : Bytes) : Outcome Chan :=
  if ch.closed then .panic
  else if ch.buf.length < ch.cap then .done { ch with buf := ch.buf ++ [data] }
  else .blocked

/-- The result of `message, ok := <-ch`. -/
inductive Recv where
  /-- A value was queued: it is returned with `ok = true`. -/
  | value (message : Bytes) (rest : Chan)
  /-- The channel is closed and drained: the zero value with `ok = false`. -/
  | closedEmpty
  /-- Nothing queued on an open channel: the receive is not ready. -/
  | notReady
  deriving DecidableEq, Repr

/-- The expression `<-ch`: the oldest queued value if there is one. -/
def Chan.recv (ch : Chan) : Recv :=
  match ch.buf with
  | m :: rest => .value m { ch with buf := rest }
  | [] => if ch.closed then .closedEmpty else .notReady

/-- The statement `close(ch)` (done by the hub when it drops the connection). -/
def Chan.close (ch : Chan) : Outcome Chan :=
  if ch.closed then .panic else .done { ch with closed := true }

/-! ## Connection -/

/-- The router, as far as `connection.go` uses a result of it:
`prepareDataForEmit` returns the payload or an error. -/
structure Router (Data : Type) where
  prepareDataForEmit : String → Data → Except String Bytes

/-- The struct `Connection`.  `addr` stands for the address of the struct,
which is what `conn` denotes in the method bodies. -/
structure Connection (Data : Type) where
  addr : Nat
  /-- The websocket connection (its handle). -/
  socket : Nat
  /-- Associated router. -/
  router : Router Data
  /-- Buffered channel of outbound messages. -/
  send : Chan

variable {Data : Type}

/-- Create a new connection using the specified socket and router. -/
def newConnection (addr : Nat) (s : Nat) (r : Router Data) : Connection Data :=
  { addr := addr, socket := s, router := r, send := Chan.make sendChannelSize }

/-! ## Read pump -/

/-- What `op, r, err := conn.socket.NextReader()` returns. -/
inductive NextReader where
  /-- The case `err != nil`. -/
  | err
  /-- A frame of kind `op`; `body` is what `ioutil.ReadAll(r)` gives when it
  is called on `r`: the payload, or `none` when it returns an error. -/
  | frame (op : OpCode) (body : Option Bytes)
  deriving DecidableEq, Repr

/-- One return of `NextReader`, with the reading of `time.Now()` in the
iteration that handles it. -/
structure Inbound where
  now : Time
  res : NextReader
  deriving DecidableEq, Repr

/-- The result of running a pump on the inputs available so far: the calls it
made, and whether it left its loop and ran its deferred function. -/
structure PumpRun where
  trace : List Effect
  exited : Bool
  deriving DecidableEq, Repr

/-- The `switch op` of the read loop.  In the `OpText` case the `break` after
a failed `ReadAll` leaves the `switch` only. -/
def readSwitch (conn : Nat) (now : Time) (op : OpCode) (body : Option Bytes) : List Effect :=
  match op with
  | OpPong => [.setReadDeadline (now + readWait)]
  | OpText =>
    match body with
    | none => [.readAll]
    | some message => [.readAll, .parse conn message]
  | _ => []

/-- The `for` loop of `readPump`.  When the inputs run out the pump is parked
in `NextReader`. -/
def readLoop (conn : Nat) : List Inbound → PumpRun
  | [] => { trace := [.nextReader], exited := false }
  | i :: rest =>
    match i.res with
    | .err => { trace := [.nextReader], exited := true }
    | .frame op body =>
      let r := readLoop conn rest
      { trace := .nextReader :: (readSwitch conn i.now op body ++ r.trace), exited := r.exited }

/-- The deferred function of `readPump`. -/
def readTeardown (conn : Nat) : List Effect :=
  [.unregister conn, .socketClose, .closeCallback conn]

/-- The method `readPump`: `now0` is the reading of `time.Now()` before the loop. -/
def Connection.readPump (conn : Connection Data) (now0 : Time) (ins : List Inbound) : PumpRun :=
  let r := readLoop conn.addr ins
  { trace := [.setReadLimit maxMessageSize, .setReadDeadline (now0 + readWait)] ++ r.trace
      ++ (if r.exited then readTeardown conn.addr else []),
    exited := r.exited }

/-- The method `run`: register, start the write pump, run the read pump. -/
def Connection.run (conn : Connection Data) (now0 : Time) (ins : List Inbound) : PumpRun :=
  let r := conn.readPump now0 ins
  { trace := [.register conn.addr, .goWritePump] ++ r.trace, exited := r.exited }

/-! ## Write pump -/

/-- The method `write`: the calls it makes, and whether it returned `nil`.
`ok` is whether `WriteMessage` succeeds. -/
def Connection.write (now : Time) (opCode : OpCode) (payload : Bytes) (ok : Bool) :
    List Effect × Bool :=
  ([.setWriteDeadline (now + writeWait), .writeMessage opCode payload ok], ok)

/-- Which case of the `select` ran. -/
inductive Ready where
  /-- The case `message, ok := <-conn.send`. -/
  | recv (message : Bytes) (ok : Bool)
  /-- The case `<-ticker.C`. -/
  | tick
  deriving DecidableEq, Repr

/-- One pass through the `select`: the case taken, the reading of
`time.Now()`, and whether the socket write of this pass succeeds. -/
structure Sel where
  now : Time
  ready : Ready
  wok : Bool
  deriving DecidableEq, Repr

/-- The body of the `for { select { ... } }`: the calls of one pass, and
whether the pass ends in `return`. -/
def writeBody (s : Sel) : List Effect × Bool :=
  match s.ready with
  | .recv message ok =>
    if !ok then
      ((Connection.write s.now OpClose [] s.wok).1, true)
    else
      let w := Connection.write s.now OpText message s.wok
      (w.1, !w.2)
  | .tick =>
    let w := Connection.write s.now OpPing [] s.wok
    (w.1, !w.2)

/-- The `for` loop of `writePump`.  When the inputs run out the pump is parked
in `select`. -/
def writeLoop : List Sel → PumpRun
  | [] => { trace := [], exited := false }
  | s :: rest =>
    let b := writeBody s
    if b.2 then { trace := b.1, exited := true }
    else
      let r := writeLoop rest
      { trace := b.1 ++ r.trace, exited := r.exited }

/-- The deferred function of `writePump`. -/
def writeTeardown : List Effect := [.tickerStop, .socketClose]

/-- The method `writePump`. -/
def Connection.writePump (sels : List Sel) : PumpRun :=
  let r := writeLoop sels
  { trace := [.newTicker pingPeriod] ++ r.trace ++ (if r.exited then writeTeardown else []),
    exited := r.exited }

/-! ## Public send interface -/

/-- The method `Send`: `conn.send <- data`. -/
def Connection.Send (conn : Connection Data) (data : Bytes) : Outcome (Connection Data) :=
  match conn.send.send data with
  | .done ch => .done { conn with send := ch }
  | .blocked => .blocked
  | .panic => .panic

/-- The method `Emit`: serialise, and send when `err == nil`. -/
def Connection.Emit (conn : Connection Data) (what : String) (data : Data) :
    Outcome (Connection Data) :=
  match conn.router.prepareDataForEmit what data with
  | .ok b =>
    match conn.send.send b with
    | .done ch => .done { conn with send := ch }
    | .blocked => .blocked
    | .panic => .panic
  | .error _ => .done conn

/-! ## The transport under a read limit -/

/-- A message as the peer put it on the wire.  `fragmented` says that it comes
in several frames, so that its size shows only while its body is read. -/
structure WireMsg where
  now : Time
  op : OpCode
  payload : Bytes
  fragmented : Bool
  deriving DecidableEq, Repr

/-- Modelled from the spec: the read side of `conn.socket` (package `websocket`,
which is not among the sources) after `SetReadLimit(limit)`.  A message within
the limit is handed over whole.  A message above the limit is a transport-level
read error: the read in progress fails (the call of `NextReader`, or for a
fragmented message the read of its body), and from then on `NextReader`
returns the error. -/
def Socket.inbound (limit : Nat) : List WireMsg → List Inbound
  | [] => []
  | m :: rest =>
    if limit < m.payload.length then
      if m.fragmented then
        [{ now := m.now, res := .frame m.op none }, { now := m.now, res := .err }]
      else
        [{ now := m.now, res := .err }]
    else
      { now := m.now, res := .frame m.op (some m.payload) } :: Socket.inbound limit rest

/-! ## The schedule around `conn.send` -/

/-- One step of a schedule: a producer calls `Send` or `Emit`, the hub closes
the channel, or the write pump makes one pass of its `select`. -/
inductive Step (Data : Type) where
  /-- Some goroutine calls `conn.Send(data)`. -/
  | send (data : Bytes)
  /-- Some goroutine calls `conn.Emit(what, data)`. -/
  | emit (what : String) (data : Data)
  /-- The statement `close(conn.send)`. -/
  | close
  /-- The `select` of the write pump takes the case `<-conn.send`. -/
  | selectSend (now : Time) (wok : Bool)
  /-- The `select` of the write pump takes the case `<-ticker.C`. -/
  | selectTick (now : Time) (wok : Bool)

/-- The connection together with the record of a schedule: what each pass of
the `select` yielded, the payloads that entered `conn.send` (both oldest
first), and whether a goroutine panicked. -/
structure World (Data : Type) where
  conn : Connection Data
  seen : List Sel
  enq : List Bytes
  panicked : Bool

/-- The world of a connection before any step. -/
def World.init (conn : Connection Data) : World Data :=
  { conn := conn, seen := [], enq := conn.send.buf, panicked := false }

/-- The write pump on what its `select` yielded so far. -/
def World.pump (w : World Data) : PumpRun := Connection.writePump w.seen

/-- The effect of a producer call on the world: a completed call grows the
record by what it appended to the channel, a parked call changes nothing, a
panic stops the program. -/
def World.produce (w : World Data) (o : Outcome (Connection Data)) : World Data :=
  match o with
  | .done c => { w with conn := c, enq := w.enq ++ c.send.buf.drop w.conn.send.buf.length }
  | .blocked => w
  | .panic => { w with panicked := true }

/-- One step of the schedule.  After a panic, and for the write pump after it
returned, nothing happens any more. -/
def World.step (w : World Data) (st : Step Data) : World Data :=
  if w.panicked then w
  else
    match st with
    | .send data => w.produce (w.conn.Send data)
    | .emit what data => w.produce (w.conn.Emit what data)
    | .close =>
      match w.conn.send.close with
      | .done ch => { w with conn := { w.conn with send := ch } }
      | .blocked => w
      | .panic => { w with panicked := true }
    | .selectSend now wok =>
      if (writeLoop w.seen).exited then w
      else
        match w.conn.send.recv with
        | .value message rest =>
          { w with conn := { w.conn with send := rest },
                   seen := w.seen ++ [{ now := now, ready := .recv message true, wok := wok }] }
        | .closedEmpty =>
          { w with seen := w.seen ++ [{ now := now, ready := .recv [] false, wok := wok }] }
        | .notReady => w
    | .selectTick now wok =>
      if (writeLoop w.seen).exited then w
      else { w with seen := w.seen ++ [{ now := now, ready := .tick, wok := wok }] }

/-- A whole schedule, step by step. -/
def World.run (w : World Data) (sched : List (Step Data)) : World Data :=
  sched.foldl World.step w

/-! ## Reading a log -/

/-- The calls of `parse` in a log: connection and message, in order. -/
def parses : List Effect → List (Nat × Bytes)
  | [] => []
  | .parse c m :: t => (c, m) :: parses t
  | _ :: t => parses t

/-- The read deadlines set in a log, in order. -/
def readDeadlines : List Effect → List Time
  | [] => []
  | .setReadDeadline d :: t => d :: readDeadlines t
  | _ :: t => readDeadlines t

/-- The payloads of the text frames written with success in a log, in order. -/
def dataFrames : List Effect → List Bytes
  | [] => []
  | .writeMessage OpText p true :: t => p :: dataFrames t
  | _ :: t => dataFrames t

/-- The payloads of the text frames handed to `WriteMessage` in a log. -/
def dataAttempts : List Effect → List Bytes
  | [] => []
  | .writeMessage OpText p _ :: t => p :: dataAttempts t
  | _ :: t => dataAttempts t

/-- The calls that belong to the life cycle of the connection rather than to
the traffic: registry, start of the write pump, socket close, close callback. -/
def Effect.isLifecycle : Effect → Bool
  | .register _ => true
  | .unregister _ => true
  | .goWritePump => true
  | .socketClose => true
  | .closeCallback _ => true
  | _ => false

/-- The inputs the read loop handles: those before the first error. -/
def processed : List Inbound → List Inbound
  | [] => []
  | i :: rest =>
    match i.res with
    | .err => []
    | .frame _ _ => i :: processed rest

/-- The payload of a complete text frame. -/
def Inbound.text (i : Inbound) : Option Bytes :=
  match i.res with
  | .frame OpText (some m) => some m
  | _ => none

/-- The deadline a heartbeat reply asks for. -/
def Inbound.pong (i : Inbound) : Option Time :=
  match i.res with
  | .frame OpPong _ => some (i.now + readWait)
  | _ => none

/-- The calls of the passes of the read loop that ran to their end. -/
def readPasses (conn : Nat) : List Inbound → List Effect
  | [] => []
  | i :: rest =>
    match i.res with
    | .err => []
    | .frame op body => .nextReader :: (readSwitch conn i.now op body ++ readPasses conn rest)

/-- The hand-over of a message that is within the read limit. -/
def WireMsg.whole (m : WireMsg) : Inbound :=
  { now := m.now, res := .frame m.op (some m.payload) }

/-! ## Reading the passes of the write pump -/

/-- Whether the pass received from the closed and drained channel (`!ok`). -/
def Sel.isClose (s : Sel) : Bool :=
  match s.ready with
  | .recv _ ok => !ok
  | .tick => false

/-- The frame that the pass hands to `write`. -/
def Sel.frame (s : Sel) : OpCode × Bytes :=
  match s.ready with
  | .recv message ok => if ok then (OpText, message) else (OpClose, [])
  | .tick => (OpPing, [])

/-- Whether the pass ends in `return`: the close frame was sent, or the write
of a text or ping frame failed. -/
def Sel.returns (s : Sel) : Bool := s.isClose || !s.wok

/-- The calls of a run of passes: for each, the write deadline and the write. -/
def writePasses : List Sel → List Effect
  | [] => []
  | s :: rest =>
    .setWriteDeadline (s.now + writeWait) :: .writeMessage s.frame.1 s.frame.2 s.wok
      :: writePasses rest

/-- The passes that run: those up to and including the first that returns. -/
def ranPasses : List Sel → List Sel
  | [] => []
  | s :: rest => if s.returns then [s] else s :: ranPasses rest

/-- Whether a step is a pass of the `select` that takes `<-conn.send`. -/
def Step.isSelectSend : Step Data → Bool
  | .selectSend _ _ => true
  | _ => false

/-! ## Invariants of a schedule -/

/-- The record of enqueued payloads is what the write loop took off the queue
followed by what is still queued. -/
def World.Balanced (w : World Data) : Prop :=
  w.enq = dataAttempts (writeLoop w.seen).trace ++ w.conn.send.buf

/-- Where the write pump stands, `k` passes on `<-conn.send` after the world
`w1` whose queue was closed: the passes `ext` made since then either took the
oldest pending payloads off the queue and none saw the channel drained, or the
last of them saw the closed channel drained after the earlier ones took all
the pending payloads. -/
def World.Draining (w1 w : World Data) (k : Nat) : Prop :=
  w.conn.send.closed = true ∧ ∃ ext, w.seen = w1.seen ++ ext ∧
    (((∀ s ∈ ext, s.isClose = false)
        ∧ dataAttempts (writePasses ext) ++ w.conn.send.buf = w1.conn.send.buf
        ∧ (w.panicked = false → (dataAttempts (writePasses ext)).length = k))
      ∨ (∃ ext1 c, ext = ext1 ++ [c] ∧ c.isClose = true ∧ (∀ s ∈ ext1, s.isClose = false)
          ∧ dataAttempts (writePasses ext1) = w1.conn.send.buf ∧ w.conn.send.buf = []))

/-! ## Sample values -/

/-- A router whose serialiser fails on the empty event name and otherwise
returns the data as the payload. -/
def demoRouter : Router Bytes :=
  { prepareDataForEmit := fun what data => if what = "" then .error "no event" else .ok data }

/-- A fresh connection at address 7 on socket 3. -/
def demoConn : Connection Bytes := newConnection 7 3 demoRouter

/-- The world after two sends on a fresh connection and the close of its
queue: the queue is closed and holds two pending payloads. -/
def demoClosed : World Bytes :=
  (World.init demoConn).run [.send [65], .send [66], .close]

/-! ## Lemmas on the read loop -/

theorem parses_append (a b : List Effect) : parses (a ++ b) = parses a ++ parses b := by
  induction a with
  | nil => rfl
  | cons e t ih => cases e <;> simp [parses, ih]

theorem readDeadlines_append (a b : List Effect) :
    readDeadlines (a ++ b) = readDeadlines a ++ readDeadlines b := by
  induction a with
  | nil => rfl
  | cons e t ih => cases e <;> simp [readDeadlines, ih]

theorem parses_readSwitch (conn : Nat) (i : Inbound) (op : OpCode) (body : Option Bytes)
    (h : i.res = .frame op body) :
    parses (readSwitch conn i.now op body) = (i.text.map fun m => (conn, m)).toList := by
  cases op <;> cases body <;> simp [readSwitch, parses, Inbound.text, h]

theorem readDeadlines_readSwitch (conn : Nat) (i : Inbound) (op : OpCode) (body : Option Bytes)
    (h : i.res = .frame op body) :
    readDeadlines (readSwitch conn i.now op body) = i.pong.toList := by
  cases op <;> cases body <;> simp [readSwitch, readDeadlines, Inbound.pong, h]

theorem readSwitch_not_lifecycle (conn : Nat) (now : Time) (op : OpCode) (body : Option Bytes) :
    ∀ e ∈ readSwitch conn now op body, e.isLifecycle = false := by
  cases op <;> cases body <;> simp [readSwitch, Effect.isLifecycle]

theorem readLoop_not_lifecycle (conn : Nat) (ins : List Inbound) :
    ∀ e ∈ (readLoop conn ins).trace, e.isLifecycle = false := by
  induction ins with
  | nil => simp [readLoop, Effect.isLifecycle]
  | cons i rest ih =>
    rcases i with ⟨now, res⟩
    cases res with
    | err => simp [readLoop, Effect.isLifecycle]
    | frame op body =>
      intro e he
      simp only [readLoop, List.mem_cons, List.mem_append] at he
      rcases he with rfl | he | he
      · rfl
      · exact readSwitch_not_lifecycle conn now op body e he
      · exact ih e he

theorem readLoop_exited_iff (conn : Nat) (ins : List Inbound) :
    (readLoop conn ins).exited = true ↔ ∃ i ∈ ins, i.res = .err := by
  induction ins with
  | nil => simp [readLoop]
  | cons i rest ih =>
    rcases i with ⟨now, res⟩
    cases res with
    | err => simp [readLoop]
    | frame op body => simp [readLoop, ih]

theorem parses_readLoop (conn : Nat) (ins : List Inbound) :
    parses (readLoop conn ins).trace
      = (processed ins).filterMap fun i => i.text.map fun m => (conn, m) := by
  induction ins with
  | nil => rfl
  | cons i rest ih =>
    rcases i with ⟨now, res⟩
    cases res with
    | err => rfl
    | frame op body =>
      have h := parses_readSwitch conn ⟨now, .frame op body⟩ op body rfl
      simp only [readLoop, processed, parses, parses_append, ih, h]
      cases hT : Inbound.text ⟨now, .frame op body⟩ <;> simp [List.filterMap_cons, hT]

theorem readDeadlines_readLoop (conn : Nat) (ins : List Inbound) :
    readDeadlines (readLoop conn ins).trace = (processed ins).filterMap Inbound.pong := by
  induction ins with
  | nil => rfl
  | cons i rest ih =>
    rcases i with ⟨now, res⟩
    cases res with
    | err => rfl
    | frame op body =>
      have h := readDeadlines_readSwitch conn ⟨now, .frame op body⟩ op body rfl
      simp only [readLoop, processed, readDeadlines, readDeadlines_append, ih, h]
      cases hT : Inbound.pong ⟨now, .frame op body⟩ <;> simp [List.filterMap_cons, hT]

theorem count_eq_zero_of_not_lifecycle (t : List Effect) (e : Effect)
    (he : e.isLifecycle = true) (h : ∀ x ∈ t, x.isLifecycle = false) : t.count e = 0 := by
  rw [List.count_eq_zero]
  intro hmem
  have := h e hmem
  rw [he] at this
  exact Bool.noConfusion this

theorem readLoop_append (conn : Nat) (pre l : List Inbound)
    (hpre : ∀ i ∈ pre, i.res ≠ .err) :
    readLoop conn (pre ++ l)
      = { trace := readPasses conn pre ++ (readLoop conn l).trace,
          exited := (readLoop conn l).exited } := by
  induction pre with
  | nil => rfl
  | cons i rest ih =>
    have hrest : ∀ j ∈ rest, j.res ≠ .err := fun j hj => hpre j (List.mem_cons_of_mem _ hj)
    have hi := hpre i (List.mem_cons_self _ _)
    rcases i with ⟨now, res⟩
    cases res with
    | err => exact absurd rfl hi
    | frame op body => simp [readLoop, readPasses, ih hrest]

theorem readLoop_parked (conn : Nat) (pre : List Inbound)
    (hpre : ∀ i ∈ pre, i.res ≠ .err) :
    readLoop conn pre = { trace := readPasses conn pre ++ [.nextReader], exited := false } := by
  have h := readLoop_append conn pre [] hpre
  simpa [readLoop] using h

theorem inbound_within (limit : Nat) (pre l : List WireMsg)
    (hpre : ∀ m ∈ pre, m.payload.length ≤ limit) :
    Socket.inbound limit (pre ++ l) = pre.map WireMsg.whole ++ Socket.inbound limit l := by
  induction pre with
  | nil => rfl
  | cons m rest ih =>
    have hrest : ∀ j ∈ rest, j.payload.length ≤ limit :=
      fun j hj => hpre j (List.mem_cons_of_mem _ hj)
    have hm : ¬ limit < m.payload.length := Nat.not_lt.mpr (hpre m (List.mem_cons_self _ _))
    simp [Socket.inbound, hm, ih hrest, WireMsg.whole]

theorem parses_readPasses_whole (conn : Nat) (pre : List WireMsg) :
    parses (readPasses conn (pre.map WireMsg.whole))
      = pre.filterMap fun m => if m.op = OpText then some (conn, m.payload) else none := by
  induction pre with
  | nil => rfl
  | cons m rest ih =>
    rcases m with ⟨now, op, payload, fr⟩
    cases op <;>
      simp [readPasses, WireMsg.whole, readSwitch, parses, parses_append, ih,
        List.filterMap_cons]

/-! ## The read pump and `run` -/

/-- C3: the calls of `run` are one registry insertion, then the start of the
write pump, then the read pump; the body of the read pump makes no life-cycle
call; and when the read pump leaves its loop (which it does exactly when a
`NextReader` returned an error) the log ends with one registry removal, the
socket close and the close callback, in this order, each once. -/
theorem run_lifecycle_order (conn : Connection Data) (now0 : Time) (ins : List Inbound) :
    ∃ body : List Effect,
      (conn.run now0 ins).trace
          = .register conn.addr :: .goWritePump :: (body
              ++ (if (conn.run now0 ins).exited
                  then [.unregister conn.addr, .socketClose, .closeCallback conn.addr]
                  else []))
        ∧ (∀ e ∈ body, e.isLifecycle = false)
        ∧ ((conn.run now0 ins).exited = true ↔ ∃ i ∈ ins, i.res = .err)
        ∧ (conn.run now0 ins).trace.count (.register conn.addr) = 1
        ∧ (conn.run now0 ins).trace.count .goWritePump = 1
        ∧ ((conn.run now0 ins).exited = true →
            (conn.run now0 ins).trace.count (.unregister conn.addr) = 1
              ∧ (conn.run now0 ins).trace.count .socketClose = 1
              ∧ (conn.run now0 ins).trace.count (.closeCallback conn.addr) = 1) := by
  have hbody : ∀ e ∈ [Effect.setReadLimit maxMessageSize, .setReadDeadline (now0 + readWait)]
      ++ (readLoop conn.addr ins).trace, e.isLifecycle = false := by
    intro e he
    rcases List.mem_append.mp he with h | h
    · simp only [List.mem_cons, List.mem_singleton, List.not_mem_nil, or_false] at h
      rcases h with rfl | rfl <;> rfl
    · exact readLoop_not_lifecycle conn.addr ins e h
  have hz := fun (e : Effect) (he : e.isLifecycle = true) =>
    count_eq_zero_of_not_lifecycle _ e he hbody
  refine ⟨[.setReadLimit maxMessageSize, .setReadDeadline (now0 + readWait)]
    ++ (readLoop conn.addr ins).trace, ?_, hbody, ?_, ?_, ?_, ?_⟩
  · simp [Connection.run, Connection.readPump, readTeardown]
  · simpa [Connection.run, Connection.readPump] using readLoop_exited_iff conn.addr ins
  · have h0 := hz (.register conn.addr) rfl
    cases hx : (readLoop conn.addr ins).exited <;>
      simp [Connection.run, Connection.readPump, readTeardown, hx, List.count_cons,
        List.count_append] at h0 ⊢ <;> simpa [List.count_cons, List.count_append] using h0
  · have h0 := hz .goWritePump rfl
    cases hx : (readLoop conn.addr ins).exited <;>
      simp [Connection.run, Connection.readPump, readTeardown, hx, List.count_cons,
        List.count_append] at h0 ⊢ <;> simpa [List.count_cons, List.count_append] using h0
  · intro hx
    have hx' : (readLoop conn.addr ins).exited = true := by
      simpa [Connection.run, Connection.readPump] using hx
    have h1 := hz (.unregister conn.addr) rfl
    have h2 := hz .socketClose rfl
    have h3 := hz (.closeCallback conn.addr) rfl
    simp only [List.count_append, List.count_cons, List.count_nil] at h1 h2 h3
    simp [Connection.run, Connection.readPump, readTeardown, hx', List.count_cons,
      List.count_append]
    omega

/-- C10: the calls of `parse` made by the read pump are, in arrival order, one
call with this connection and the payload for each complete text frame that
`NextReader` returned before its first error, and nothing else; the branch of a
heartbeat reply makes no call of `parse`. -/
theorem readPump_parse_once_per_frame (conn : Connection Data) (now0 : Time)
    (ins : List Inbound) :
    parses (conn.readPump now0 ins).trace
        = (processed ins).filterMap (fun i => i.text.map fun m => (conn.addr, m))
      ∧ ∀ (now : Time) (body : Option Bytes),
          parses (readSwitch conn.addr now OpPong body) = [] := by
  constructor
  · have h := parses_readLoop conn.addr ins
    cases hx : (readLoop conn.addr ins).exited <;>
      simp [Connection.readPump, parses_append, parses, readTeardown, hx, h]
  · intro now body
    rfl

/-- C7: when `ReadAll` fails on a text frame that arrives after frames `pre`,
the read pump has not left its loop and its next call is `NextReader`; nothing
is forwarded for that frame; and the frames that follow are handled as if the
failed frame had not been there. -/
theorem readPump_body_error_continues (conn : Connection Data) (now0 t : Time)
    (pre rest : List Inbound) (hpre : ∀ i ∈ pre, i.res ≠ .err) :
    (conn.readPump now0 (pre ++ [⟨t, .frame OpText none⟩])).exited = false
      ∧ (conn.readPump now0 (pre ++ [⟨t, .frame OpText none⟩])).trace
          = (conn.readPump now0 pre).trace ++ [.readAll, .nextReader]
      ∧ parses (conn.readPump now0 (pre ++ ⟨t, .frame OpText none⟩ :: rest)).trace
          = parses (conn.readPump now0 (pre ++ rest)).trace
      ∧ (conn.readPump now0 (pre ++ ⟨t, .frame OpText none⟩ :: rest)).exited
          = (conn.readPump now0 (pre ++ rest)).exited := by
  have h1 := readLoop_append conn.addr pre [⟨t, .frame OpText none⟩] hpre
  have h2 := readLoop_parked conn.addr pre hpre
  have h3 := readLoop_append conn.addr pre (⟨t, .frame OpText none⟩ :: rest) hpre
  have h4 := readLoop_append conn.addr pre rest hpre
  refine ⟨?_, ?_, ?_, ?_⟩
  · simp [Connection.readPump, h1, readLoop]
  · simp [Connection.readPump, h1, h2, readLoop, readSwitch]
  · simp only [Connection.readPump, h3, h4, readLoop, readSwitch]
    cases (readLoop conn.addr rest).exited <;>
      simp [parses_append, parses]
  · simp [Connection.readPump, h3, h4, readLoop]

/-- C7 at a concrete input: a pong, then a text frame whose body fails. -/
theorem readPump_body_error_continues_witness :
    (∀ i ∈ [(⟨1, .frame OpPong none⟩ : Inbound)], i.res ≠ .err)
      ∧ (demoConn.readPump 0
            ([⟨1, .frame OpPong none⟩] ++ [⟨2, .frame OpText none⟩])).exited = false
      ∧ (demoConn.readPump 0
            ([⟨1, .frame OpPong none⟩] ++ [⟨2, .frame OpText none⟩])).trace
          = (demoConn.readPump 0
              [⟨1, .frame OpPong none⟩]).trace ++ [.readAll, .nextReader]
      ∧ parses (demoConn.readPump 0
            ([⟨1, .frame OpPong none⟩] ++ ⟨2, .frame OpText none⟩
              :: [⟨3, .frame OpText (some [104, 105])⟩, ⟨4, .err⟩])).trace
          = parses (demoConn.readPump 0
            ([⟨1, .frame OpPong none⟩]
              ++ [⟨3, .frame OpText (some [104, 105])⟩, ⟨4, .err⟩])).trace
      ∧ (demoConn.readPump 0
            ([⟨1, .frame OpPong none⟩] ++ ⟨2, .frame OpText none⟩
              :: [⟨3, .frame OpText (some [104, 105])⟩, ⟨4, .err⟩])).exited
          = (demoConn.readPump 0
            ([⟨1, .frame OpPong none⟩]
              ++ [⟨3, .frame OpText (some [104, 105])⟩, ⟨4, .err⟩])).exited :=
  ⟨by decide,
    readPump_body_error_continues demoConn 0 2
      [⟨1, .frame OpPong none⟩] [⟨3, .frame OpText (some [104, 105])⟩, ⟨4, .err⟩]
      (by decide)⟩

/-- C6: with the read limit that the read pump sets, a message above
`maxMessageSize` that follows messages within the limit makes the read pump
leave its loop and run its deferred function; the payloads forwarded to the
router are those of the text messages before it, so neither the oversize
message nor anything after it is forwarded. -/
theorem readPump_oversize_terminates (conn : Connection Data) (now0 : Time)
    (pre post : List WireMsg) (big : WireMsg)
    (hpre : ∀ m ∈ pre, m.payload.length ≤ maxMessageSize)
    (hbig : maxMessageSize < big.payload.length) :
    (conn.readPump now0 (Socket.inbound maxMessageSize (pre ++ big :: post))).trace.head?
        = some (.setReadLimit maxMessageSize)
      ∧ (conn.readPump now0 (Socket.inbound maxMessageSize (pre ++ big :: post))).exited = true
      ∧ (∃ body, (conn.readPump now0 (Socket.inbound maxMessageSize (pre ++ big :: post))).trace
          = body ++ [.unregister conn.addr, .socketClose, .closeCallback conn.addr])
      ∧ parses (conn.readPump now0 (Socket.inbound maxMessageSize (pre ++ big :: post))).trace
          = pre.filterMap fun m => if m.op = OpText then some (conn.addr, m.payload) else none := by
  have hin := inbound_within maxMessageSize pre (big :: post) hpre
  have hw : ∀ i ∈ pre.map WireMsg.whole, i.res ≠ .err := by
    intro i hi
    rcases List.mem_map.mp hi with ⟨m, _, rfl⟩
    simp [WireMsg.whole]
  have hl := fun l => readLoop_append conn.addr (pre.map WireMsg.whole) l hw
  have hp := parses_readPasses_whole conn.addr pre
  refine ⟨by simp [Connection.readPump], ?_, ?_, ?_⟩
  · cases hf : big.fragmented <;>
      simp [Connection.readPump, hin, hl, Socket.inbound, hbig, hf, readLoop]
  · have hex : (readLoop conn.addr
        (Socket.inbound maxMessageSize (pre ++ big :: post))).exited = true := by
      cases hf : big.fragmented <;> simp [hin, hl, Socket.inbound, hbig, hf, readLoop]
    exact ⟨[.setReadLimit maxMessageSize, .setReadDeadline (now0 + readWait)]
      ++ (readLoop conn.addr (Socket.inbound maxMessageSize (pre ++ big :: post))).trace,
      by simp [Connection.readPump, hex, readTeardown]⟩
  · cases hf : big.fragmented <;> cases hop : big.op <;>
      simp [Connection.readPump, hin, hl, Socket.inbound, hbig, hf, hop, readLoop, readTeardown,
        readSwitch, parses_append, parses, hp]

/-- C6 at a concrete input: a text message, then one of 513 bytes. -/
theorem readPump_oversize_terminates_witness :
    (∀ m ∈ [(⟨1, OpText, [104, 105], false⟩ : WireMsg)], m.payload.length ≤ maxMessageSize)
      ∧ maxMessageSize < (⟨2, OpText, List.replicate 513 0, true⟩ : WireMsg).payload.length
      ∧ (demoConn.readPump 0 (Socket.inbound maxMessageSize
            ([⟨1, OpText, [104, 105], false⟩] ++ ⟨2, OpText, List.replicate 513 0, true⟩
              :: [⟨3, OpText, [111], false⟩]))).exited = true
      ∧ parses (demoConn.readPump 0 (Socket.inbound maxMessageSize
            ([⟨1, OpText, [104, 105], false⟩] ++ ⟨2, OpText, List.replicate 513 0, true⟩
              :: [⟨3, OpText, [111], false⟩]))).trace
          = [(7, [104, 105])] :=
  have h := readPump_oversize_terminates demoConn 0 [⟨1, OpText, [104, 105], false⟩]
    [⟨3, OpText, [111], false⟩] ⟨2, OpText, List.replicate 513 0, true⟩
    (by simp [maxMessageSize]) (by rw [List.length_replicate]; decide)
  ⟨by simp [maxMessageSize], by rw [List.length_replicate]; decide, h.2.1, h.2.2.2⟩

/-! ## Lemmas on the write loop -/

theorem writeBody_eq (s : Sel) :
    writeBody s
      = ([.setWriteDeadline (s.now + writeWait), .writeMessage s.frame.1 s.frame.2 s.wok],
          s.returns) := by
  rcases s with ⟨now, ready, wok⟩
  cases ready with
  | recv m ok => cases ok <;> cases wok <;> rfl
  | tick => cases wok <;> rfl

theorem writeLoop_trace (sels : List Sel) :
    (writeLoop sels).trace = writePasses (ranPasses sels) := by
  induction sels with
  | nil => rfl
  | cons s rest ih =>
    cases hr : s.returns <;> simp [writeLoop, writeBody_eq, ranPasses, writePasses, hr, ih]

theorem writeLoop_exited (sels : List Sel) :
    (writeLoop sels).exited = sels.any Sel.returns := by
  induction sels with
  | nil => rfl
  | cons s rest ih =>
    cases hr : s.returns <;> simp [writeLoop, writeBody_eq, hr, ih]

theorem ranPasses_append (a l : List Sel) (ha : ∀ x ∈ a, x.returns = false) :
    ranPasses (a ++ l) = a ++ ranPasses l := by
  induction a with
  | nil => rfl
  | cons s rest ih =>
    have hs := ha s (List.mem_cons_self _ _)
    have hrest : ∀ x ∈ rest, x.returns = false := fun x hx => ha x (List.mem_cons_of_mem _ hx)
    simp [ranPasses, hs, ih hrest]

theorem ranPasses_running (a : List Sel) (ha : ∀ x ∈ a, x.returns = false) :
    ranPasses a = a := by
  simpa [ranPasses] using ranPasses_append a [] ha

theorem ranPasses_initial (sels : List Sel) : ranPasses sels <+: sels := by
  induction sels with
  | nil => exact List.prefix_refl _
  | cons s rest ih =>
    cases hr : s.returns
    · simpa [ranPasses, hr, List.cons_prefix_cons] using ih
    · simp [ranPasses, hr, List.cons_prefix_cons]

theorem writePasses_append (a b : List Sel) :
    writePasses (a ++ b) = writePasses a ++ writePasses b := by
  induction a with
  | nil => rfl
  | cons s rest ih => simp [writePasses, ih]

theorem writePasses_not_lifecycle (a : List Sel) :
    ∀ e ∈ writePasses a, e.isLifecycle = false := by
  induction a with
  | nil => simp [writePasses]
  | cons s rest ih =>
    intro e he
    simp only [writePasses, List.mem_cons] at he
    rcases he with rfl | rfl | he
    · rfl
    · rfl
    · exact ih e he

theorem any_returns_false (a : List Sel) (ha : ∀ x ∈ a, x.returns = false) :
    a.any Sel.returns = false := by
  rw [List.any_eq_false]
  intro x hx
  simp [ha x hx]

/-! ## The write pump -/

/-- C8: when the passes `pre` all went on (their writes succeeded and the
channel was not closed) and the write of the next pass `s` fails, the write
pump returns: its log is the log of `pre`, the deadline and the failed write of
`s`, then `ticker.Stop()` and `socket.Close()`, whatever the passes `rest` that
could have followed; so no frame is written after the failed one. -/
theorem writePump_stops_at_failed_write (pre rest : List Sel) (s : Sel)
    (hpre : ∀ x ∈ pre, x.wok = true ∧ x.isClose = false) (hs : s.wok = false) :
    (Connection.writePump (pre ++ s :: rest)).exited = true
      ∧ (Connection.writePump (pre ++ s :: rest)).trace
          = (Connection.writePump pre).trace
              ++ [.setWriteDeadline (s.now + writeWait),
                  .writeMessage s.frame.1 s.frame.2 false, .tickerStop, .socketClose]
      ∧ Connection.writePump (pre ++ s :: rest) = Connection.writePump (pre ++ [s])
      ∧ (Connection.writePump pre).exited = false := by
  have hpre' : ∀ x ∈ pre, x.returns = false := by
    intro x hx
    simp [Sel.returns, hpre x hx]
  have hsr : s.returns = true := by simp [Sel.returns, hs]
  have h1 : ∀ l, ranPasses (pre ++ s :: l) = pre ++ [s] := by
    intro l
    rw [ranPasses_append pre _ hpre']
    simp [ranPasses, hsr]
  have h2 := ranPasses_running pre hpre'
  have h3 := any_returns_false pre hpre'
  have e1 : ∀ l, (writeLoop (pre ++ s :: l)).exited = true := by
    intro l
    simp [writeLoop_exited, hsr]
  have e2 : (writeLoop pre).exited = false := by
    rw [writeLoop_exited]
    exact h3
  have t1 : ∀ l, (writeLoop (pre ++ s :: l)).trace
      = writePasses pre ++ [.setWriteDeadline (s.now + writeWait),
          .writeMessage s.frame.1 s.frame.2 false] := by
    intro l
    rw [writeLoop_trace, h1, writePasses_append]
    simp [writePasses, hs]
  have t2 : (writeLoop pre).trace = writePasses pre := by
    rw [writeLoop_trace, h2]
  refine ⟨?_, ?_, ?_, ?_⟩
  · simp [Connection.writePump, e1]
  · simp [Connection.writePump, e1, e2, t1, t2, writeTeardown]
  · simp [Connection.writePump, e1 rest, e1 [], t1 rest, t1 []]
  · simp [Connection.writePump, e2]

/-- C8 at a concrete input: three payloads, the write of the second fails. -/
theorem writePump_stops_at_failed_write_witness :
    (∀ x ∈ [(⟨1, .recv [65] true, true⟩ : Sel)], x.wok = true ∧ x.isClose = false)
      ∧ (⟨2, .recv [66] true, false⟩ : Sel).wok = false
      ∧ (Connection.writePump
            ([⟨1, .recv [65] true, true⟩] ++ ⟨2, .recv [66] true, false⟩
              :: [⟨3, .recv [67] true, true⟩])).trace
          = [.newTicker 54000000000,
              .setWriteDeadline 10000000001, .writeMessage OpText [65] true,
              .setWriteDeadline 10000000002, .writeMessage OpText [66] false,
              .tickerStop, .socketClose] :=
  ⟨by decide, rfl,
    (writePump_stops_at_failed_write [⟨1, .recv [65] true, true⟩]
      [⟨3, .recv [67] true, true⟩] ⟨2, .recv [66] true, false⟩ (by decide) rfl).2.1⟩

/-- C4, as the code has it: the read pump sets the read deadline to now + 60s
once before its loop and once for each heartbeat reply it handles, and at no
other point (a data frame does not refresh it); the log of the write pump is
the ticker, then for each pass that ran the write deadline now + 10s directly
followed by the write, then the deferred calls, so every write of a frame is
preceded by setting the write deadline. -/
theorem deadlines_set_by_pumps (conn : Connection Data) (now0 : Time) (ins : List Inbound)
    (sels : List Sel) :
    readDeadlines (conn.readPump now0 ins).trace
        = (now0 + readWait) :: (processed ins).filterMap Inbound.pong
      ∧ (∃ ran, ran <+: sels
          ∧ (Connection.writePump sels).trace
              = .newTicker pingPeriod :: (writePasses ran
                  ++ (if (Connection.writePump sels).exited
                      then [.tickerStop, .socketClose] else [])))
      ∧ readWait = 60 * 1000000000 ∧ writeWait = 10 * 1000000000 := by
  refine ⟨?_, ⟨ranPasses sels, ranPasses_initial sels, ?_⟩, rfl, rfl⟩
  · have h := readDeadlines_readLoop conn.addr ins
    cases hx : (readLoop conn.addr ins).exited <;>
      simp [Connection.readPump, readDeadlines_append, readDeadlines, readTeardown, hx, h]
  · simp [Connection.writePump, writeLoop_trace, writeTeardown]

/-- C4 fails as stated: a text frame arrives at time 5 and is read with
success and forwarded, yet the only read deadline ever set is the one from
before the loop; no deadline 5 + 60s is set. -/
theorem read_deadline_not_refreshed_by_data_frame :
    parses (demoConn.readPump 0 [⟨5, .frame OpText (some [104, 105])⟩]).trace
        = [(7, [104, 105])]
      ∧ Effect.setReadDeadline (5 + readWait)
          ∉ (demoConn.readPump 0 [⟨5, .frame OpText (some [104, 105])⟩]).trace
      ∧ readDeadlines (demoConn.readPump 0 [⟨5, .frame OpText (some [104, 105])⟩]).trace
          = [0 + readWait] := by
  decide

theorem writeLoop_not_lifecycle (sels : List Sel) :
    ∀ e ∈ (writeLoop sels).trace, e.isLifecycle = false := by
  rw [writeLoop_trace]
  exact writePasses_not_lifecycle _

/-- C2, as the code has it: when both pumps return, each of them has called
`socket.Close()` exactly once in its deferred function, so the socket close is
invoked exactly twice over the two teardown paths. -/
theorem socket_close_once_per_pump (conn : Connection Data) (now0 : Time)
    (ins : List Inbound) (sels : List Sel)
    (hr : (conn.readPump now0 ins).exited = true)
    (hw : (Connection.writePump sels).exited = true) :
    (conn.readPump now0 ins).trace.count .socketClose = 1
      ∧ (Connection.writePump sels).trace.count .socketClose = 1
      ∧ ((conn.readPump now0 ins).trace ++ (Connection.writePump sels).trace).count
          .socketClose = 2 := by
  have hr' : (readLoop conn.addr ins).exited = true := by
    simpa [Connection.readPump] using hr
  have hw' : (writeLoop sels).exited = true := by
    simpa [Connection.writePump] using hw
  have h1 := count_eq_zero_of_not_lifecycle _ .socketClose rfl
    (readLoop_not_lifecycle conn.addr ins)
  have h2 := count_eq_zero_of_not_lifecycle _ .socketClose rfl (writeLoop_not_lifecycle sels)
  have c1 : (conn.readPump now0 ins).trace.count .socketClose = 1 := by
    simp [Connection.readPump, hr', readTeardown, List.count_append, List.count_cons, h1]
  have c2 : (Connection.writePump sels).trace.count .socketClose = 1 := by
    simp [Connection.writePump, hw', writeTeardown, List.count_append, List.count_cons, h2]
  refine ⟨c1, c2, ?_⟩
  rw [List.count_append, c1, c2]

/-- C2 amended, at a concrete input: the peer hangs up and the queue is closed. -/
theorem socket_close_once_per_pump_witness :
    (demoConn.readPump 0 [⟨1, .frame OpPong none⟩, ⟨2, .err⟩]).exited = true
      ∧ (Connection.writePump [⟨1, .tick, true⟩, ⟨2, .recv [] false, true⟩]).exited = true
      ∧ ((demoConn.readPump 0 [⟨1, .frame OpPong none⟩, ⟨2, .err⟩]).trace
          ++ (Connection.writePump [⟨1, .tick, true⟩, ⟨2, .recv [] false, true⟩]).trace).count
            .socketClose = 2 :=
  ⟨rfl, rfl,
    (socket_close_once_per_pump demoConn 0 [⟨1, .frame OpPong none⟩, ⟨2, .err⟩]
      [⟨1, .tick, true⟩, ⟨2, .recv [] false, true⟩] rfl rfl).2.2⟩

/-- C2 fails as stated: in a run where the read pump returns on a read error
and the write pump returns on the closed queue, `socket.Close()` is invoked
twice, not once. -/
theorem socket_closed_twice :
    (demoConn.readPump 0 [⟨1, .err⟩]).exited = true
      ∧ (Connection.writePump [⟨1, .recv [] false, true⟩]).exited = true
      ∧ ((demoConn.readPump 0 [⟨1, .err⟩]).trace
          ++ (Connection.writePump [⟨1, .recv [] false, true⟩]).trace).count .socketClose = 2
      ∧ ((demoConn.readPump 0 [⟨1, .err⟩]).trace
          ++ (Connection.writePump [⟨1, .recv [] false, true⟩]).trace).count .socketClose
            ≠ 1 := by
  decide

/-! ## The public send interface -/

/-- C9: when the serialiser of the router returns a payload, `Emit` does
exactly what `Send` does with that payload (on an open channel with room, the
payload is appended at the back of the queue); when the serialiser returns an
error, `Emit` returns with the connection unchanged; and whenever `Emit`
changes the queue, the serialiser succeeded and the queue grew by exactly the
payload it returned. -/
theorem Emit_enqueues_what_serializer_returned (conn : Connection Data) (what : String)
    (data : Data) :
    (∀ b, conn.router.prepareDataForEmit what data = .ok b →
        conn.Emit what data = conn.Send b
          ∧ (conn.send.closed = false → conn.send.buf.length < conn.send.cap →
              conn.Emit what data
                = .done { conn with send := { conn.send with buf := conn.send.buf ++ [b] } }))
      ∧ (∀ e, conn.router.prepareDataForEmit what data = .error e →
          conn.Emit what data = .done conn)
      ∧ (∀ c, conn.Emit what data = .done c → c.send.buf ≠ conn.send.buf →
          ∃ b, conn.router.prepareDataForEmit what data = .ok b
            ∧ c.send.buf = conn.send.buf ++ [b]) := by
  refine ⟨?_, ?_, ?_⟩
  · intro b hb
    refine ⟨by simp [Connection.Emit, Connection.Send, hb], ?_⟩
    intro hc hl
    simp [Connection.Emit, hb, Chan.send, hc, hl]
  · intro e he
    simp [Connection.Emit, he]
  · intro c hc hne
    cases hp : conn.router.prepareDataForEmit what data with
    | error e =>
      simp [Connection.Emit, hp] at hc
      exact absurd (by rw [hc]) hne
    | ok b =>
      refine ⟨b, rfl, ?_⟩
      by_cases hcl : conn.send.closed = true
      · simp [Connection.Emit, hp, Chan.send, hcl] at hc
      · by_cases hl : conn.send.buf.length < conn.send.cap
        · simp [Connection.Emit, hp, Chan.send, hcl, hl] at hc
          rw [← hc]
        · simp [Connection.Emit, hp, Chan.send, hcl, hl] at hc

/-! ## Lemmas on the schedule -/

theorem dataFrames_append (a b : List Effect) :
    dataFrames (a ++ b) = dataFrames a ++ dataFrames b := by
  induction a with
  | nil => rfl
  | cons e t ih =>
    cases e with
    | writeMessage op p ok => cases op <;> cases ok <;> simp [dataFrames, ih]
    | _ => simp [dataFrames, ih]

theorem dataAttempts_append (a b : List Effect) :
    dataAttempts (a ++ b) = dataAttempts a ++ dataAttempts b := by
  induction a with
  | nil => rfl
  | cons e t ih =>
    cases e with
    | writeMessage op p ok => cases op <;> simp [dataAttempts, ih]
    | _ => simp [dataAttempts, ih]

theorem writeLoop_running (a : List Sel) (h : (writeLoop a).exited = false) :
    ∀ x ∈ a, x.returns = false := by
  rw [writeLoop_exited, List.any_eq_false] at h
  intro x hx
  simpa using h x hx

theorem writeLoop_snoc (a : List Sel) (s : Sel) (h : (writeLoop a).exited = false) :
    (writeLoop (a ++ [s])).trace
      = (writeLoop a).trace
          ++ [.setWriteDeadline (s.now + writeWait), .writeMessage s.frame.1 s.frame.2 s.wok] := by
  have ha := writeLoop_running a h
  rw [writeLoop_trace, writeLoop_trace, ranPasses_append a _ ha, ranPasses_running a ha,
    writePasses_append]
  cases hr : s.returns <;> simp [ranPasses, hr, writePasses]

theorem dataFrames_prefix_dataAttempts (sels : List Sel) :
    dataFrames (writePasses (ranPasses sels)) <+: dataAttempts (writePasses (ranPasses sels)) := by
  induction sels with
  | nil => exact List.prefix_refl _
  | cons s rest ih =>
    rcases s with ⟨now, ready, wok⟩
    cases ready with
    | recv m ok =>
      cases ok <;> cases wok <;>
        simp [ranPasses, Sel.returns, Sel.isClose, writePasses, Sel.frame, dataFrames,
          dataAttempts, List.cons_prefix_cons, ih]
    | tick =>
      cases wok <;>
        simp [ranPasses, Sel.returns, Sel.isClose, writePasses, Sel.frame, dataFrames,
          dataAttempts, ih]

theorem dataFrames_eq_dataAttempts (l : List Sel) (h : ∀ s ∈ l, s.wok = true) :
    dataFrames (writePasses l) = dataAttempts (writePasses l) := by
  induction l with
  | nil => rfl
  | cons s rest ih =>
    have hs := h s (List.mem_cons_self _ _)
    have hrest : ∀ x ∈ rest, x.wok = true := fun x hx => h x (List.mem_cons_of_mem _ hx)
    cases hf : s.frame.1 <;> simp [writePasses, dataFrames, dataAttempts, hs, hf, ih hrest]

theorem dataFrames_writePump (sels : List Sel) :
    dataFrames (Connection.writePump sels).trace = dataFrames (writeLoop sels).trace := by
  cases hx : (writeLoop sels).exited <;>
    simp [Connection.writePump, hx, writeTeardown, dataFrames, dataFrames_append]

theorem World.balanced_init (conn : Connection Data) : (World.init conn).Balanced := by
  simp [World.Balanced, World.init, writeLoop, dataAttempts]

theorem World.balanced_produce_send (w : World Data) (b : Bytes) (h : w.Balanced) :
    (w.produce (w.conn.Send b)).Balanced := by
  unfold World.Balanced at h ⊢
  by_cases hc : w.conn.send.closed = true
  · simpa [World.produce, Connection.Send, Chan.send, hc] using h
  · by_cases hl : w.conn.send.buf.length < w.conn.send.cap
    · simp [World.produce, Connection.Send, Chan.send, hc, hl, h]
    · simpa [World.produce, Connection.Send, Chan.send, hc, hl] using h

theorem Emit_eq_Send (conn : Connection Data) (what : String) (data : Data) (b : Bytes)
    (h : conn.router.prepareDataForEmit what data = .ok b) :
    conn.Emit what data = conn.Send b := by
  simp [Connection.Emit, Connection.Send, h]

theorem World.balanced_step (w : World Data) (st : Step Data) (h : w.Balanced) :
    (w.step st).Balanced := by
  unfold World.step
  by_cases hp : w.panicked = true
  · simpa [hp] using h
  · simp only [hp, Bool.false_eq_true, if_false]
    cases st with
    | send data => exact World.balanced_produce_send w data h
    | emit what data =>
      cases hs : w.conn.router.prepareDataForEmit what data with
      | ok b =>
        simp only [Emit_eq_Send w.conn what data b hs]
        exact World.balanced_produce_send w b h
      | error e =>
        unfold World.Balanced at h ⊢
        simpa [Connection.Emit, hs, World.produce] using h
    | close =>
      unfold World.Balanced at h ⊢
      by_cases hc : w.conn.send.closed = true
      · simpa [Chan.close, hc] using h
      · simpa [Chan.close, hc] using h
    | selectSend now wok =>
      by_cases hx : (writeLoop w.seen).exited = true
      · simpa [hx] using h
      · have hx' : (writeLoop w.seen).exited = false := by simpa using hx
        unfold World.Balanced at h ⊢
        simp only [hx', Bool.false_eq_true, if_false]
        cases hb : w.conn.send.buf with
        | nil =>
          by_cases hc : w.conn.send.closed = true
          · simp [Chan.recv, hb, hc, writeLoop_snoc _ _ hx', dataAttempts_append, dataAttempts,
              Sel.frame, h]
          · simpa [Chan.recv, hb, hc] using h
        | cons m rest =>
          simp [Chan.recv, hb, writeLoop_snoc _ _ hx', dataAttempts_append, dataAttempts,
            Sel.frame, h]
    | selectTick now wok =>
      by_cases hx : (writeLoop w.seen).exited = true
      · simpa [hx] using h
      · have hx' : (writeLoop w.seen).exited = false := by simpa using hx
        unfold World.Balanced at h ⊢
        simp [hx', writeLoop_snoc _ _ hx', dataAttempts_append, dataAttempts, Sel.frame, h]

theorem World.balanced_run (sched : List (Step Data)) (w : World Data) (h : w.Balanced) :
    (w.run sched).Balanced := by
  induction sched generalizing w with
  | nil => exact h
  | cons st rest ih => exact ih (w.step st) (World.balanced_step w st h)

/-- C1: along every schedule of `Send`, `Emit`, channel close, ticks and passes
of the write pump, the payloads of the text frames written with success are a
prefix of the payloads in the order in which they entered `conn.send`; when
every socket write succeeded, the enqueued payloads are exactly the written
ones followed by those still queued, so all are written once the queue is
drained.  A `Send` that completes adds its payload at the back of the queue
and at the end of the record. -/
theorem writePump_sends_in_enqueue_order (conn : Connection Data) (sched : List (Step Data)) :
    dataFrames ((World.init conn).run sched).pump.trace <+: ((World.init conn).run sched).enq
      ∧ ((∀ s ∈ ((World.init conn).run sched).seen, s.wok = true) →
          ((World.init conn).run sched).enq
            = dataFrames ((World.init conn).run sched).pump.trace
                ++ ((World.init conn).run sched).conn.send.buf)
      ∧ (∀ (v : World Data) (data : Bytes), v.panicked = false → v.conn.send.closed = false →
          v.conn.send.buf.length < v.conn.send.cap →
            (v.step (.send data)).enq = v.enq ++ [data]
              ∧ (v.step (.send data)).conn.send.buf = v.conn.send.buf ++ [data]) := by
  have hb := World.balanced_run sched (World.init conn) (World.balanced_init conn)
  unfold World.Balanced at hb
  refine ⟨?_, ?_, ?_⟩
  · rw [hb, World.pump, dataFrames_writePump, writeLoop_trace]
    exact (dataFrames_prefix_dataAttempts _).trans (List.prefix_append _ _)
  · intro hw
    have hsub : ∀ s ∈ ranPasses ((World.init conn).run sched).seen, s.wok = true :=
      fun s hs => hw s ((ranPasses_initial _).subset hs)
    rw [hb, World.pump, dataFrames_writePump, writeLoop_trace,
      dataFrames_eq_dataAttempts _ hsub]
  · intro v data hp hc hl
    simp [World.step, hp, World.produce, Connection.Send, Chan.send, hc, hl]

/-- C1 at a concrete schedule: three payloads sent around a tick and the
passes of the pump reach the wire in the order of the sends. -/
theorem writePump_sends_in_enqueue_order_witness :
    ((World.init demoConn).run
        [.send [65], .selectTick 1 true, .send [66], .selectSend 2 true, .send [67],
          .selectSend 3 true, .selectSend 4 true]).enq = [[65], [66], [67]]
      ∧ dataFrames ((World.init demoConn).run
          [.send [65], .selectTick 1 true, .send [66], .selectSend 2 true, .send [67],
            .selectSend 3 true, .selectSend 4 true]).pump.trace = [[65], [66], [67]]
      ∧ dataFrames ((World.init demoConn).run
          [.send [65], .selectTick 1 true, .send [66], .selectSend 2 true, .send [67],
            .selectSend 3 true, .selectSend 4 true]).pump.trace
          <+: ((World.init demoConn).run
            [.send [65], .selectTick 1 true, .send [66], .selectSend 2 true, .send [67],
              .selectSend 3 true, .selectSend 4 true]).enq :=
  ⟨by decide, by decide,
    (writePump_sends_in_enqueue_order demoConn
      [.send [65], .selectTick 1 true, .send [66], .selectSend 2 true, .send [67],
        .selectSend 3 true, .selectSend 4 true]).1⟩

/-! ## Draining a closed queue -/

theorem World.step_panicked (w : World Data) (st : Step Data) (h : w.panicked = true) :
    w.step st = w := by
  simp [World.step, h]

theorem World.panicked_step (w : World Data) (st : Step Data)
    (h : (w.step st).panicked = false) : w.panicked = false := by
  by_cases hp : w.panicked = true
  · rw [World.step_panicked w st hp] at h
    exact h
  · simpa using hp

theorem World.seen_produce (w : World Data) (o : Outcome (Connection Data)) :
    (w.produce o).seen = w.seen := by
  cases o <;> rfl

theorem World.seen_prefix_step (w : World Data) (st : Step Data) :
    w.seen <+: (w.step st).seen := by
  unfold World.step
  by_cases hp : w.panicked = true
  · simp [hp]
  · simp only [hp, Bool.false_eq_true, if_false]
    cases st with
    | send data => simp [World.seen_produce]
    | emit what data => simp [World.seen_produce]
    | close =>
      cases h : w.conn.send.close <;> simp
    | selectSend now wok =>
      by_cases hx : (writeLoop w.seen).exited = true
      · simp [hx]
      · simp only [hx, Bool.false_eq_true, if_false]
        cases h : w.conn.send.recv <;> simp
    | selectTick now wok =>
      by_cases hx : (writeLoop w.seen).exited = true
      · simp [hx]
      · simp [hx]

theorem World.seen_prefix_run (sched : List (Step Data)) (w : World Data) :
    w.seen <+: (w.run sched).seen := by
  induction sched generalizing w with
  | nil => exact List.prefix_refl _
  | cons st rest ih => exact (World.seen_prefix_step w st).trans (ih (w.step st))

theorem World.draining_transfer (w1 w v : World Data) (k j : Nat) (h : World.Draining w1 w k)
    (hs : v.conn.send = w.conn.send) (hseen : v.seen = w.seen)
    (hp : v.panicked = false → w.panicked = false ∧ j = k) : World.Draining w1 v j := by
  obtain ⟨hc, ext, he, hcase⟩ := h
  refine ⟨by rw [hs]; exact hc, ext, by rw [hseen]; exact he, ?_⟩
  rcases hcase with ⟨h1, h2, h3⟩ | ⟨ext1, c, h1, h2, h3, h4, h5⟩
  · left
    refine ⟨h1, by rw [hs]; exact h2, ?_⟩
    intro hv
    obtain ⟨hw, hj⟩ := hp hv
    rw [hj]
    exact h3 hw
  · right
    exact ⟨ext1, c, h1, h2, h3, h4, by rw [hs]; exact h5⟩

theorem World.draining_exited (w1 w : World Data) (k j : Nat) (h : World.Draining w1 w k)
    (hrun : (writeLoop w1.seen).exited = false) (hw : ∀ s ∈ w.seen, s.wok = true)
    (hx : (writeLoop w.seen).exited = true) : World.Draining w1 w j := by
  obtain ⟨hc, ext, he, hcase⟩ := h
  refine ⟨hc, ext, he, ?_⟩
  rcases hcase with ⟨h1, _, _⟩ | hright
  · exfalso
    have hall : ∀ x ∈ w.seen, x.returns = false := by
      intro x hxm
      rw [he] at hxm
      rcases List.mem_append.mp hxm with hm | hm
      · exact writeLoop_running _ hrun x hm
      · have hwok := hw x (by rw [he]; exact List.mem_append_right _ hm)
        simp [Sel.returns, h1 x hm, hwok]
    rw [writeLoop_exited, any_returns_false _ hall] at hx
    exact Bool.noConfusion hx
  · exact Or.inr hright

theorem World.draining_running (w1 w : World Data) (k : Nat) (h : World.Draining w1 w k)
    (hx : (writeLoop w.seen).exited = false) :
    ∃ ext, w.seen = w1.seen ++ ext ∧ (∀ s ∈ ext, s.isClose = false)
      ∧ dataAttempts (writePasses ext) ++ w.conn.send.buf = w1.conn.send.buf
      ∧ (w.panicked = false → (dataAttempts (writePasses ext)).length = k) := by
  obtain ⟨hc, ext, he, hcase⟩ := h
  rcases hcase with ⟨h1, h2, h3⟩ | ⟨ext1, c, h1, h2, _, _, _⟩
  · exact ⟨ext, he, h1, h2, h3⟩
  · exfalso
    have hcm : c ∈ w.seen := by
      rw [he, h1]
      simp
    have := writeLoop_running _ hx c hcm
    simp [Sel.returns, h2] at this

theorem World.draining_step (w1 w : World Data) (k : Nat) (st : Step Data)
    (hrun : (writeLoop w1.seen).exited = false) (h : World.Draining w1 w k)
    (hw : ∀ s ∈ (w.step st).seen, s.wok = true) :
    World.Draining w1 (w.step st) (k + if st.isSelectSend then 1 else 0) := by
  have hwold : ∀ s ∈ w.seen, s.wok = true :=
    fun s hs => hw s ((World.seen_prefix_step w st).subset hs)
  by_cases hp : w.panicked = true
  · rw [World.step_panicked w st hp]
    exact World.draining_transfer w1 w w k _ h rfl rfl
      (fun hv => by rw [hp] at hv; exact Bool.noConfusion hv)
  · have hp' : w.panicked = false := by simpa using hp
    have hc := h.1
    cases st with
    | send data =>
      have e : w.step (.send data) = { w with panicked := true } := by
        simp [World.step, hp', World.produce, Connection.Send, Chan.send, hc]
      rw [e]
      exact World.draining_transfer w1 w _ k _ h rfl rfl (fun hv => Bool.noConfusion hv)
    | emit what data =>
      cases hs : w.conn.router.prepareDataForEmit what data with
      | ok b =>
        have e : w.step (.emit what data) = { w with panicked := true } := by
          simp [World.step, hp', World.produce, Connection.Emit, hs, Chan.send, hc]
        rw [e]
        exact World.draining_transfer w1 w _ k _ h rfl rfl (fun hv => Bool.noConfusion hv)
      | error err =>
        have e1 : (w.step (.emit what data)).conn.send = w.conn.send := by
          simp [World.step, hp', World.produce, Connection.Emit, hs]
        have e2 : (w.step (.emit what data)).seen = w.seen := by
          simp [World.step, hp', World.produce, Connection.Emit, hs]
        exact World.draining_transfer w1 w _ k _ h e1 e2
          (fun _ => ⟨hp', by simp [Step.isSelectSend]⟩)
    | close =>
      have e : w.step .close = { w with panicked := true } := by
        simp [World.step, hp', Chan.close, hc]
      rw [e]
      exact World.draining_transfer w1 w _ k _ h rfl rfl (fun hv => Bool.noConfusion hv)
    | selectSend now wok =>
      by_cases hx : (writeLoop w.seen).exited = true
      · have e : w.step (.selectSend now wok) = w := by simp [World.step, hp', hx]
        rw [e]
        exact World.draining_exited w1 w k _ h hrun hwold hx
      · have hx' : (writeLoop w.seen).exited = false := by simpa using hx
        obtain ⟨ext, he, h1, h2, h3⟩ := World.draining_running w1 w k h hx'
        cases hb : w.conn.send.buf with
        | nil =>
          have e : w.step (.selectSend now wok)
              = { w with seen := w.seen ++ [⟨now, .recv [] false, wok⟩] } := by
            simp [World.step, hp', hx', Chan.recv, hb, hc]
          rw [e]
          refine ⟨hc, ext ++ [⟨now, .recv [] false, wok⟩], by simp [he], Or.inr ?_⟩
          refine ⟨ext, ⟨now, .recv [] false, wok⟩, rfl, rfl, h1, ?_, hb⟩
          simpa [hb] using h2
        | cons m rest =>
          have e : w.step (.selectSend now wok)
              = { w with conn := { w.conn with send := { w.conn.send with buf := rest } },
                         seen := w.seen ++ [⟨now, .recv m true, wok⟩] } := by
            simp [World.step, hp', hx', Chan.recv, hb]
          rw [e]
          refine ⟨hc, ext ++ [⟨now, .recv m true, wok⟩], by simp [he], Or.inl ⟨?_, ?_, ?_⟩⟩
          · intro s hs
            rcases List.mem_append.mp hs with hm | hm
            · exact h1 s hm
            · rw [List.mem_singleton.mp hm]
              rfl
          · rw [hb] at h2
            simp [writePasses_append, dataAttempts_append, writePasses, dataAttempts, Sel.frame,
              ← h2]
          · intro _
            simp [writePasses_append, dataAttempts_append, writePasses, dataAttempts, Sel.frame,
              Step.isSelectSend, h3 hp']
    | selectTick now wok =>
      by_cases hx : (writeLoop w.seen).exited = true
      · have e : w.step (.selectTick now wok) = w := by simp [World.step, hp', hx]
        rw [e]
        exact World.draining_exited w1 w k _ h hrun hwold hx
      · have hx' : (writeLoop w.seen).exited = false := by simpa using hx
        obtain ⟨ext, he, h1, h2, h3⟩ := World.draining_running w1 w k h hx'
        have e : w.step (.selectTick now wok)
            = { w with seen := w.seen ++ [⟨now, .tick, wok⟩] } := by
          simp [World.step, hp', hx']
        rw [e]
        refine ⟨hc, ext ++ [⟨now, .tick, wok⟩], by simp [he], Or.inl ⟨?_, ?_, ?_⟩⟩
        · intro s hs
          rcases List.mem_append.mp hs with hm | hm
          · exact h1 s hm
          · rw [List.mem_singleton.mp hm]
            rfl
        · simpa [writePasses_append, dataAttempts_append, writePasses, dataAttempts, Sel.frame]
            using h2
        · intro _
          simp [writePasses_append, dataAttempts_append, writePasses, dataAttempts, Sel.frame,
            Step.isSelectSend, h3 hp']

theorem World.draining_run (w1 : World Data) (hrun : (writeLoop w1.seen).exited = false)
    (sched : List (Step Data)) (w : World Data) (k : Nat) (h : World.Draining w1 w k)
    (hw : ∀ s ∈ (w.run sched).seen, s.wok = true) :
    World.Draining w1 (w.run sched) (k + sched.countP Step.isSelectSend) := by
  induction sched generalizing w k with
  | nil => simpa [World.run] using h
  | cons st rest ih =>
    have hstep : ∀ s ∈ (w.step st).seen, s.wok = true :=
      fun s hs => hw s ((World.seen_prefix_run rest (w.step st)).subset hs)
    have h1 := World.draining_step w1 w k st hrun h hstep
    have h2 := ih (w.step st) _ h1 hw
    have hk : k + (if st.isSelectSend then 1 else 0) + rest.countP Step.isSelectSend
        = k + (st :: rest).countP Step.isSelectSend := by
      rw [List.countP_cons]
      cases st.isSelectSend <;> simp [Nat.add_assoc, Nat.add_comm]
    rw [hk] at h2
    exact h2

theorem frame_of_isClose (s : Sel) (h : s.isClose = true) : s.frame = (OpClose, []) := by
  rcases s with ⟨now, ready, wok⟩
  cases ready with
  | recv m ok => cases ok <;> simp_all [Sel.isClose, Sel.frame]
  | tick => simp [Sel.isClose] at h

theorem no_close_frame (l : List Sel) (h : ∀ s ∈ l, s.isClose = false) :
    ∀ p ok, Effect.writeMessage OpClose p ok ∉ writePasses l := by
  induction l with
  | nil => simp [writePasses]
  | cons s rest ih =>
    intro p ok hmem
    have hs := h s (List.mem_cons_self _ _)
    have hrest : ∀ x ∈ rest, x.isClose = false := fun x hx => h x (List.mem_cons_of_mem _ hx)
    simp only [writePasses, List.mem_cons] at hmem
    rcases hmem with hm | hm | hm
    · cases hm
    · rcases s with ⟨now, ready, wok⟩
      cases ready with
      | recv m okr => cases okr <;> simp_all [Sel.isClose, Sel.frame]
      | tick => simp [Sel.frame] at hm
    · exact ih hrest p ok hm

theorem World.draining_init (w1 : World Data) (hc : w1.conn.send.closed = true) :
    World.Draining w1 w1 0 :=
  ⟨hc, [], by simp, Or.inl ⟨by simp, by simp [writePasses, dataAttempts],
    fun _ => by simp [writePasses, dataAttempts]⟩⟩

/-- C5: take any moment at which the queue is closed, holds the pending
payloads `w1.conn.send.buf`, and the write pump has not returned, and any
schedule after it in which every socket write succeeds.  While the pump has
not returned it wrote no close frame, and the text frames it wrote since then
are the oldest pending payloads, in order.  Once it has returned, its log
since then is: text frames carrying exactly the pending payloads in order
(with pings in between), no close frame among them, then the write deadline
and the close frame, then `ticker.Stop()` and `socket.Close()`; the queue is
then closed and empty.  And it does return once it made more passes on
`<-conn.send` than there were pending payloads. -/
theorem writePump_drains_before_close (w1 : World Data) (sched : List (Step Data))
    (hc : w1.conn.send.closed = true) (hrun : w1.pump.exited = false)
    (hw : ∀ s ∈ (w1.run sched).seen, s.wok = true) :
    ((w1.run sched).pump.exited = false →
        ∃ mid, (w1.run sched).pump.trace = w1.pump.trace ++ mid
          ∧ (∀ p ok, Effect.writeMessage OpClose p ok ∉ mid)
          ∧ dataFrames mid ++ (w1.run sched).conn.send.buf = w1.conn.send.buf)
      ∧ ((w1.run sched).pump.exited = true →
          ∃ mid t, (w1.run sched).pump.trace
              = w1.pump.trace ++ mid
                ++ [.setWriteDeadline t, .writeMessage OpClose [] true, .tickerStop,
                    .socketClose]
            ∧ (∀ p ok, Effect.writeMessage OpClose p ok ∉ mid)
            ∧ dataFrames mid = w1.conn.send.buf
            ∧ (w1.run sched).conn.send.buf = []
            ∧ (w1.run sched).conn.send.closed = true)
      ∧ ((w1.run sched).panicked = false →
          w1.conn.send.buf.length < sched.countP Step.isSelectSend →
            (w1.run sched).pump.exited = true) := by
  have hrun' : (writeLoop w1.seen).exited = false := by
    simpa [World.pump, Connection.writePump] using hrun
  have hd := World.draining_run w1 hrun' sched w1 0 (World.draining_init w1 hc) hw
  obtain ⟨hc2, ext, he, hcase⟩ := hd
  have ha := writeLoop_running _ hrun'
  have hwext : ∀ s ∈ ext, s.wok = true :=
    fun s hs => hw s (by rw [he]; exact List.mem_append_right _ hs)
  have ht1 : w1.pump.trace = .newTicker pingPeriod :: writePasses w1.seen := by
    simp [World.pump, Connection.writePump, hrun', writeLoop_trace, ranPasses_running _ ha]
  rcases hcase with ⟨h1, h2, h3⟩ | ⟨ext1, c, h1, h2, h3, h4, h5⟩
  · have hall : ∀ x ∈ w1.seen ++ ext, x.returns = false := by
      intro x hx
      rcases List.mem_append.mp hx with hm | hm
      · exact ha x hm
      · simp [Sel.returns, h1 x hm, hwext x hm]
    have hex : (writeLoop (w1.run sched).seen).exited = false := by
      rw [he, writeLoop_exited]
      exact any_returns_false _ hall
    have hpx : (w1.run sched).pump.exited = false := by
      simpa [World.pump, Connection.writePump] using hex
    have ht2 : (w1.run sched).pump.trace = w1.pump.trace ++ writePasses ext := by
      rw [ht1]
      rw [he] at hex
      simp [World.pump, Connection.writePump, hex, writeLoop_trace, he,
        ranPasses_running _ hall, writePasses_append]
    refine ⟨?_, ?_, ?_⟩
    · intro _
      refine ⟨writePasses ext, ht2, no_close_frame ext h1, ?_⟩
      rw [dataFrames_eq_dataAttempts ext hwext]
      exact h2
    · intro hx
      rw [hpx] at hx
      exact Bool.noConfusion hx
    · intro hp hlt
      have hlen := h3 hp
      have hsum := congrArg List.length h2
      rw [List.length_append] at hsum
      omega
  · have hall1 : ∀ x ∈ w1.seen ++ ext1, x.returns = false := by
      intro x hx
      rcases List.mem_append.mp hx with hm | hm
      · exact ha x hm
      · have hm' : x ∈ ext := by rw [h1]; exact List.mem_append_left _ hm
        simp [Sel.returns, h3 x hm, hwext x hm']
    have hcr : c.returns = true := by simp [Sel.returns, h2]
    have hcw : c.wok = true := hwext c (by rw [h1]; simp)
    have hseen : (w1.run sched).seen = (w1.seen ++ ext1) ++ [c] := by
      rw [he, h1, List.append_assoc]
    have hran : ranPasses (w1.run sched).seen = (w1.seen ++ ext1) ++ [c] := by
      rw [hseen, ranPasses_append _ _ hall1]
      simp [ranPasses, hcr]
    have hex : (writeLoop (w1.run sched).seen).exited = true := by
      rw [hseen, writeLoop_exited]
      simp [hcr]
    have hpx : (w1.run sched).pump.exited = true := by
      simpa [World.pump, Connection.writePump] using hex
    refine ⟨?_, ?_, ?_⟩
    · intro hx
      rw [hpx] at hx
      exact Bool.noConfusion hx
    · intro _
      refine ⟨writePasses ext1, c.now + writeWait, ?_, no_close_frame ext1 h3, ?_, h5, hc2⟩
      · rw [ht1]
        simp [World.pump, Connection.writePump, hex, writeLoop_trace, hran, writePasses_append,
          writePasses, frame_of_isClose c h2, hcw, writeTeardown]
      · rw [dataFrames_eq_dataAttempts ext1
          (fun s hs => hwext s (by rw [h1]; exact List.mem_append_left _ hs))]
        exact h4
    · intro _ _
      exact hpx

/-- C5 at a concrete input: the queue is closed holding two payloads; the pump
then makes a pass on the queue, one on the ticker, and two more on the queue. -/
theorem writePump_drains_before_close_witness :
    demoClosed.conn.send.closed = true
      ∧ demoClosed.conn.send.buf = [[65], [66]]
      ∧ demoClosed.pump.exited = false
      ∧ (∀ s ∈ (demoClosed.run [.selectSend 1 true, .selectTick 2 true, .selectSend 3 true,
            .selectSend 4 true]).seen, s.wok = true)
      ∧ (demoClosed.run [.selectSend 1 true, .selectTick 2 true, .selectSend 3 true,
            .selectSend 4 true]).pump.trace
          = [.newTicker 54000000000,
              .setWriteDeadline 10000000001, .writeMessage OpText [65] true,
              .setWriteDeadline 10000000002, .writeMessage OpPing [] true,
              .setWriteDeadline 10000000003, .writeMessage OpText [66] true,
              .setWriteDeadline 10000000004, .writeMessage OpClose [] true,
              .tickerStop, .socketClose]
      ∧ (demoClosed.run [.selectSend 1 true, .selectTick 2 true, .selectSend 3 true,
            .selectSend 4 true]).pump.exited = true :=
  ⟨by decide, by decide, by decide, by decide, by decide,
    (writePump_drains_before_close demoClosed
      [.selectSend 1 true, .selectTick 2 true, .selectSend 3 true, .selectSend 4 true]
      (by decide) (by decide) (by decide)).2.2 (by decide) (by decide)⟩

end Golem
